import Mathlib

/-!
Shallow embedding of the thermonets core (`thermonets/_density.py` and
`thermonets/_util.py`) and theorems checking the specification's claims.

The real-valued embedding models the numpy pipeline over `List ℝ`
(finite arithmetic, Mathlib's junk-value conventions for `/0` and `log 0`).
A second model, `FloatV`, adds IEEE special values (infinities and NaN, with
finite arithmetic kept exact) for the claims that are precisely about
IEEE special-value propagation of the numeric backend.
-/

/-- WGS84 equatorial radius in meters, `a_earth` in `_util.py`. -/
noncomputable def a_earth : ℝ := 6378137.0

/-- WGS84 polar radius in meters, `b_earth` in `_util.py`. -/
noncomputable def b_earth : ℝ := 6356752.314245

/-- Default squared oblateness `e2 = 1 - b_earth**2 / a_earth**2` (`_util.py`). -/
noncomputable def e2_wgs84 : ℝ := 1 - b_earth ^ 2 / a_earth ^ 2

/-- Real model of `np.arctan2 y x` (signed zeros are not distinguished). -/
noncomputable def atan2 (y x : ℝ) : ℝ :=
  if 0 < x then Real.arctan (y / x)
  else if x < 0 then
    (if 0 ≤ y then Real.arctan (y / x) + Real.pi else Real.arctan (y / x) - Real.pi)
  else
    (if 0 < y then Real.pi / 2 else if y < 0 then -(Real.pi / 2) else 0)

/-- Real model of `np.log10`. -/
noncomputable def log10 (x : ℝ) : ℝ := Real.logb 10 x

/-- Real model of `np.mean` of a one-dimensional array. -/
noncomputable def mean (l : List ℝ) : ℝ := l.sum / l.length

/-- One iteration of the accumulation loop of `rho_approximation`
(`_density.py`): the vectorized statement
`retval += alpha * np.exp(-(h - gamma) * beta)`, with `abg` the current
`(alpha, (beta, gamma))` triple produced by `zip(alphas, betas, gammas)`. -/
noncomputable def rhoStep (h : List ℝ) (retval : List ℝ) (abg : ℝ × ℝ × ℝ) : List ℝ :=
  List.zipWith (fun r hi => r + abg.1 * Real.exp (-(hi - abg.2.2) * abg.2.1)) retval h

/-- `rho_approximation(h, params)` from `_density.py`:
`n = len(params) // 3`; `alphas = params[0:n]`, `betas = params[n:2n]`,
`gammas = params[2n:3n]`; `retval = np.zeros(h.shape)`; then one vectorized
accumulation per `(alpha, beta, gamma)` triple. -/
noncomputable def rho_approximation (h params : List ℝ) : List ℝ :=
  let n := params.length / 3
  ((params.take n).zip (((params.drop n).take n).zip ((params.drop (2 * n)).take n))).foldl
    (rhoStep h) (List.replicate h.length 0)

/-- The user-defined problem `global_fit_udp` of `_density.py`: the state set in
`__init__` (dataset `X`, `Y` and term count `n`). -/
structure global_fit_udp where
  X : List ℝ
  Y : List ℝ
  n : ℕ

/-- `global_fit_udp.fitness`: `[np.mean(np.abs(np.log10(self.Y) - np.log10(Y_pred)))]`
with `Y_pred = rho_approximation(self.X, x)`. -/
noncomputable def global_fit_udp.fitness (udp : global_fit_udp) (x : List ℝ) : List ℝ :=
  let Y_pred := rho_approximation udp.X x
  [mean ((List.zipWith (fun a b => a - b) (udp.Y.map log10) (Y_pred.map log10)).map
    (fun t => |t|))]

/-- Model of the external `pygmo.estimate_gradient` utility: a finite-difference
estimate of each partial derivative of the scalar objective (first fitness
component) with step `dx`.  Its exact scheme is external library behaviour;
only its statelessness matters for the claims below. -/
noncomputable def estimate_gradient (f : List ℝ → List ℝ) (x : List ℝ) (dx : ℝ) : List ℝ :=
  (List.range x.length).map fun j =>
    ((f (x.set j (x.getD j 0 + dx))).getD 0 0 - (f x).getD 0 0) / dx

/-- `global_fit_udp.gradient`: delegates to the external gradient estimator on
`self.fitness`. -/
noncomputable def global_fit_udp.gradient (udp : global_fit_udp) (x : List ℝ) : List ℝ :=
  estimate_gradient udp.fitness x (1e-8)

/-- `global_fit_udp.get_bounds`: `lb = [0]*3n`; `ub = [1e-1]*3n` with the slice
`ub[2n:]` then overwritten by `[100]*n`. -/
noncomputable def global_fit_udp.get_bounds (udp : global_fit_udp) : List ℝ × List ℝ :=
  let lb := List.replicate (udp.n * 3) (0 : ℝ)
  let ub := (List.replicate (udp.n * 3) (1e-1 : ℝ)).take (udp.n * 2) ++
    List.replicate udp.n (100 : ℝ)
  (lb, ub)

/-- `fitness` as a method call: the returned value together with the `self`
object as the method body leaves it (the body assigns no attribute). -/
noncomputable def fitness_method (udp : global_fit_udp) (x : List ℝ) :
    List ℝ × global_fit_udp :=
  (udp.fitness x, udp)

/-- `gradient` as a method call, with the `self` object it leaves behind. -/
noncomputable def gradient_method (udp : global_fit_udp) (x : List ℝ) :
    List ℝ × global_fit_udp :=
  (udp.gradient x, udp)

/-- `get_bounds` as a method call, with the `self` object it leaves behind. -/
noncomputable def get_bounds_method (udp : global_fit_udp) :
    (List ℝ × List ℝ) × global_fit_udp :=
  (udp.get_bounds, udp)

/-- A call to one of the three public methods of `global_fit_udp`. -/
inductive UdpOp where
  | fitnessCall (x : List ℝ)
  | gradientCall (x : List ℝ)
  | boundsCall

/-- The state of the problem object after serving one method call. -/
noncomputable def applyOp (udp : global_fit_udp) : UdpOp → global_fit_udp
  | .fitnessCall x => (fitness_method udp x).2
  | .gradientCall x => (gradient_method udp x).2
  | .boundsCall => (get_bounds_method udp).2

/-- Loop body of `cart2geo` (`_util.py`) under the numeric backend, with the
trip counter of `for _ in range(iters)` made explicit.  The state is
(iterations executed so far, the local variable `h` if it has been assigned
yet, the current `phi`). -/
noncomputable def cart2geoAux (z p e2 R_eq : ℝ) (st : ℕ × Option ℝ × ℝ) :
    ℕ × Option ℝ × ℝ :=
  let N := R_eq / Real.sqrt (1 - e2 * Real.sin st.2.2 ^ 2)
  let h := p / Real.cos st.2.2 - N
  (st.1 + 1, some h, Real.arctan (z / p / (1 - e2 * N / (N + h))))

/-- The state of `cart2geo` after its loop: `long`, `p` and the initial
`phi = atan(z / p / (1 - e2))` as in the source, then `iters` loop iterations. -/
noncomputable def cart2geoRun (x y z e2 R_eq : ℝ) (iters : ℕ) : ℕ × Option ℝ × ℝ :=
  let p := Real.sqrt (x ^ 2 + y ^ 2)
  let phi := Real.arctan (z / p / (1 - e2))
  (cart2geoAux z p e2 R_eq)^[iters] (0, none, phi)

/-- `cart2geo(x, y, z, e2, R_eq, iters)` (`_util.py`, numeric backend):
`return h, phi, long` succeeds only when the loop has assigned `h` at least
once; returning an unassigned local is modelled as `none`. -/
noncomputable def cart2geo (x y z e2 R_eq : ℝ) (iters : ℕ) : Option (ℝ × ℝ × ℝ) :=
  let long := atan2 y x
  let st := cart2geoRun x y z e2 R_eq iters
  match st.2.1 with
  | none => none
  | some h => some (h, st.2.2, long)

/-- `geo2cart(h, lat, lon, e2, R_eq)` (`_util.py`, numeric backend): closed form. -/
noncomputable def geo2cart (h lat lon e2 R_eq : ℝ) : ℝ × ℝ × ℝ :=
  let N := R_eq / Real.sqrt (1 - e2 * Real.sin lat ^ 2)
  ((N + h) * Real.cos lat * Real.cos lon,
   (N + h) * Real.cos lat * Real.sin lon,
   ((1 - e2) * N + h) * Real.sin lat)

/-- Modelled from the spec (section 4.1): one refinement step exactly as the
spec words it, with the update written `atan(z / (p * (1 - e2 * N / (N + h))))`.
Used only to compare the spec's wording with the code embedding `cart2geo`. -/
noncomputable def stepSpec (z p e2 R_eq : ℝ) (phi : ℝ) : ℝ × ℝ :=
  let N := R_eq / Real.sqrt (1 - e2 * Real.sin phi ^ 2)
  let h := p / Real.cos phi - N
  (h, Real.arctan (z / (p * (1 - e2 * N / (N + h)))))

/-- Modelled from the spec: the refinement loop, returning the `(h, phi)` pair
produced by the last of `j + 1` executed steps. -/
noncomputable def loopSpec (z p e2 R_eq : ℝ) : ℕ → ℝ → ℝ × ℝ
  | 0, phi => stepSpec z p e2 R_eq phi
  | j + 1, phi => loopSpec z p e2 R_eq j (stepSpec z p e2 R_eq phi).2

/-- Modelled from the spec (section 4.1): `longitude = atan2(y, x)`,
`p = sqrt(x^2 + y^2)`, initial `phi = atan(z / (p * (1 - e2)))`, then `iters`
refinement steps (meaningful for `iters ≥ 1`). -/
noncomputable def cart2geoSpec (x y z e2 R_eq : ℝ) (iters : ℕ) : ℝ × ℝ × ℝ :=
  let long := atan2 y x
  let p := Real.sqrt (x ^ 2 + y ^ 2)
  let phi0 := Real.arctan (z / (p * (1 - e2)))
  let hp := loopSpec z p e2 R_eq (iters - 1) phi0
  (hp.1, hp.2, long)

/-- IEEE-style extended value: an exact real together with the two infinities
and NaN.  This models the special-value propagation of the double-precision
numpy backend; arithmetic on finite values is taken exact (no rounding). -/
inductive FloatV where
  | fin (x : ℝ)
  | inf
  | ninf
  | nan

namespace FloatV

/-- IEEE negation. -/
noncomputable def neg : FloatV → FloatV
  | fin a => fin (-a)
  | inf => ninf
  | ninf => inf
  | nan => nan

/-- IEEE addition (`inf + ninf = nan`). -/
noncomputable def add : FloatV → FloatV → FloatV
  | fin a, fin b => fin (a + b)
  | fin _, inf => inf
  | inf, fin _ => inf
  | inf, inf => inf
  | fin _, ninf => ninf
  | ninf, fin _ => ninf
  | ninf, ninf => ninf
  | inf, ninf => nan
  | ninf, inf => nan
  | nan, _ => nan
  | _, nan => nan

/-- IEEE subtraction. -/
noncomputable def sub : FloatV → FloatV → FloatV
  | fin a, fin b => fin (a - b)
  | fin _, inf => ninf
  | fin _, ninf => inf
  | inf, fin _ => inf
  | ninf, fin _ => ninf
  | inf, ninf => inf
  | ninf, inf => ninf
  | inf, inf => nan
  | ninf, ninf => nan
  | nan, _ => nan
  | _, nan => nan

/-- IEEE multiplication (`0 * inf = nan`). -/
noncomputable def mul : FloatV → FloatV → FloatV
  | fin a, fin b => fin (a * b)
  | fin a, inf => if 0 < a then inf else if a < 0 then ninf else nan
  | inf, fin a => if 0 < a then inf else if a < 0 then ninf else nan
  | fin a, ninf => if 0 < a then ninf else if a < 0 then inf else nan
  | ninf, fin a => if 0 < a then ninf else if a < 0 then inf else nan
  | inf, inf => inf
  | inf, ninf => ninf
  | ninf, inf => ninf
  | ninf, ninf => inf
  | nan, _ => nan
  | _, nan => nan

/-- IEEE division; the unsigned zero is treated as `+0`, so
`a / 0 = ±inf` for finite nonzero `a` and `0 / 0 = nan`. -/
noncomputable def div : FloatV → FloatV → FloatV
  | fin a, fin b =>
      if b = 0 then (if a = 0 then nan else if 0 < a then inf else ninf)
      else fin (a / b)
  | fin _, inf => fin 0
  | fin _, ninf => fin 0
  | inf, fin b => if b < 0 then ninf else inf
  | ninf, fin b => if b < 0 then inf else ninf
  | inf, inf => nan
  | inf, ninf => nan
  | ninf, inf => nan
  | ninf, ninf => nan
  | nan, _ => nan
  | _, nan => nan

/-- IEEE square root (`sqrt` of a negative value is `nan`). -/
noncomputable def sqrtF : FloatV → FloatV
  | fin a => if a < 0 then nan else fin (Real.sqrt a)
  | inf => inf
  | ninf => nan
  | nan => nan

/-- IEEE exponential. -/
noncomputable def expF : FloatV → FloatV
  | fin a => fin (Real.exp a)
  | inf => inf
  | ninf => fin 0
  | nan => nan

/-- IEEE base-10 logarithm (`log10 0 = -inf`, negative argument gives `nan`). -/
noncomputable def log10F : FloatV → FloatV
  | fin a => if a = 0 then ninf else if a < 0 then nan else fin (Real.logb 10 a)
  | inf => inf
  | ninf => nan
  | nan => nan

/-- IEEE sine (only finite arguments are meaningful). -/
noncomputable def sinF : FloatV → FloatV
  | fin a => fin (Real.sin a)
  | _ => nan

/-- IEEE cosine (only finite arguments are meaningful). -/
noncomputable def cosF : FloatV → FloatV
  | fin a => fin (Real.cos a)
  | _ => nan

/-- IEEE arctangent: the infinities map to the finite values `±pi/2`. -/
noncomputable def atanF : FloatV → FloatV
  | fin a => fin (Real.arctan a)
  | inf => fin (Real.pi / 2)
  | ninf => fin (-(Real.pi / 2))
  | nan => nan

/-- IEEE absolute value. -/
noncomputable def absF : FloatV → FloatV
  | fin a => fin |a|
  | inf => inf
  | ninf => inf
  | nan => nan

/-- IEEE `atan2` on finite arguments (with `atan2 0 0 = 0` as in numpy);
non-finite arguments, unused by the claims, are sent to `nan`. -/
noncomputable def atan2F : FloatV → FloatV → FloatV
  | fin y, fin x =>
      if 0 < x then fin (Real.arctan (y / x))
      else if x < 0 then
        (if 0 ≤ y then fin (Real.arctan (y / x) + Real.pi)
         else fin (Real.arctan (y / x) - Real.pi))
      else (if 0 < y then fin (Real.pi / 2)
            else if y < 0 then fin (-(Real.pi / 2)) else fin 0)
  | _, _ => nan

end FloatV

/-- Default `e2` argument of `cart2geo` in the IEEE-value model; the default is
computed from the finite WGS84 constants, hence exact in the model. -/
noncomputable def e2_wgs84F : FloatV := .fin e2_wgs84

/-- Default `R_eq` argument of `cart2geo` in the IEEE-value model. -/
noncomputable def R_eqF : FloatV := .fin a_earth

/-- Loop body of `cart2geo` in the IEEE-value model, same statement-by-statement
structure as `cart2geoAux`; the state is (the local `h` if assigned yet, `phi`). -/
noncomputable def cart2geoFAux (z p e2 R_eq : FloatV) (st : Option FloatV × FloatV) :
    Option FloatV × FloatV :=
  let N := FloatV.div R_eq
    (FloatV.sqrtF (FloatV.sub (.fin 1) (FloatV.mul e2 (FloatV.mul (FloatV.sinF st.2) (FloatV.sinF st.2)))))
  let h := FloatV.sub (FloatV.div p (FloatV.cosF st.2)) N
  (some h,
   FloatV.atanF (FloatV.div (FloatV.div z p)
     (FloatV.sub (.fin 1) (FloatV.div (FloatV.mul e2 N) (FloatV.add N h)))))

/-- `cart2geo` in the IEEE-value model (numeric backend). -/
noncomputable def cart2geoF (x y z e2 R_eq : FloatV) (iters : ℕ) :
    Option (FloatV × FloatV × FloatV) :=
  let long := FloatV.atan2F y x
  let p := FloatV.sqrtF (FloatV.add (FloatV.mul x x) (FloatV.mul y y))
  let phi0 := FloatV.atanF (FloatV.div (FloatV.div z p) (FloatV.sub (.fin 1) e2))
  let st := (cart2geoFAux z p e2 R_eq)^[iters] (none, phi0)
  match st.1 with
  | none => none
  | some h => some (h, st.2, long)

/-- Loop body of `rho_approximation` in the IEEE-value model. -/
noncomputable def rhoStepF (h : List FloatV) (retval : List FloatV)
    (abg : FloatV × FloatV × FloatV) : List FloatV :=
  List.zipWith
    (fun r hi => FloatV.add r
      (FloatV.mul abg.1 (FloatV.expF (FloatV.mul (FloatV.neg (FloatV.sub hi abg.2.2)) abg.2.1))))
    retval h

/-- `rho_approximation` in the IEEE-value model. -/
noncomputable def rho_approximationF (h params : List FloatV) : List FloatV :=
  let n := params.length / 3
  ((params.take n).zip (((params.drop n).take n).zip ((params.drop (2 * n)).take n))).foldl
    (rhoStepF h) (List.replicate h.length (.fin 0))

/-- `np.mean` in the IEEE-value model: sum of the entries over their count. -/
noncomputable def meanF (l : List FloatV) : FloatV :=
  FloatV.div (l.foldl FloatV.add (.fin 0)) (.fin l.length)

/-- `global_fit_udp.fitness` in the IEEE-value model, for a problem with dataset
`X`, `Y`. -/
noncomputable def fitnessF (X Y : List FloatV) (x : List FloatV) : List FloatV :=
  let Y_pred := rho_approximationF X x
  [meanF ((List.zipWith FloatV.sub (Y.map FloatV.log10F) (Y_pred.map FloatV.log10F)).map
    FloatV.absF)]

section Lemmas

lemma rhoStep_length (h retval : List ℝ) (abg : ℝ × ℝ × ℝ)
    (hl : retval.length = h.length) : (rhoStep h retval abg).length = h.length := by
  simp [rhoStep, hl]

lemma rhoStep_getD (h retval : List ℝ) (abg : ℝ × ℝ × ℝ) (hl : retval.length = h.length)
    (i : ℕ) (hi : i < h.length) :
    (rhoStep h retval abg).getD i 0 =
      retval.getD i 0 + abg.1 * Real.exp (-(h.getD i 0 - abg.2.2) * abg.2.1) := by
  have h1 : i < (rhoStep h retval abg).length := by
    rw [rhoStep_length h retval abg hl]; exact hi
  rw [List.getD_eq_getElem _ _ h1, List.getD_eq_getElem _ _ (by omega : i < retval.length),
    List.getD_eq_getElem _ _ hi]
  simp [rhoStep, List.getElem_zipWith]

lemma rho_foldl_length (h : List ℝ) :
    ∀ (L : List (ℝ × ℝ × ℝ)) (acc : List ℝ), acc.length = h.length →
      (L.foldl (rhoStep h) acc).length = h.length := by
  intro L
  induction L with
  | nil => intro acc hacc; simpa using hacc
  | cons t L ih =>
    intro acc hacc
    simp only [List.foldl_cons]
    exact ih _ (rhoStep_length h acc t hacc)

lemma rho_foldl_getD (h : List ℝ) :
    ∀ (L : List (ℝ × ℝ × ℝ)) (acc : List ℝ), acc.length = h.length →
      ∀ i, i < h.length →
        (L.foldl (rhoStep h) acc).getD i 0 =
          acc.getD i 0 + (L.map (fun t => t.1 * Real.exp (-(h.getD i 0 - t.2.2) * t.2.1))).sum := by
  intro L
  induction L with
  | nil => intro acc hacc i hi; simp
  | cons t L ih =>
    intro acc hacc i hi
    simp only [List.foldl_cons, List.map_cons, List.sum_cons]
    rw [ih _ (rhoStep_length h acc t hacc) i hi, rhoStep_getD h acc t hacc i hi]
    ring

lemma rho_approximation_length (h params : List ℝ) :
    (rho_approximation h params).length = h.length := by
  unfold rho_approximation
  exact rho_foldl_length h _ _ (by simp)

lemma rho_approximation_nil (params : List ℝ) : rho_approximation [] params = [] := by
  have h := rho_approximation_length [] params
  simpa using List.length_eq_zero.mp (by simpa using h)

lemma sum_map_zip3_getD (f : ℝ → ℝ → ℝ → ℝ) :
    ∀ (A B C : List ℝ) (m : ℕ), A.length = m → B.length = m → C.length = m →
      ((A.zip (B.zip C)).map (fun t => f t.1 t.2.1 t.2.2)).sum =
        ∑ j ∈ Finset.range m, f (A.getD j 0) (B.getD j 0) (C.getD j 0) := by
  intro A
  induction A with
  | nil =>
    intro B C m hA hB hC
    subst hA
    simp
  | cons a A ih =>
    intro B C m hA hB hC
    cases B with
    | nil => simp at hA hB; omega
    | cons b B =>
      cases C with
      | nil => simp at hA hC; omega
      | cons c C =>
        cases m with
        | zero => simp at hA
        | succ m =>
          simp only [List.zip_cons_cons, List.map_cons, List.sum_cons]
          rw [Finset.sum_range_succ']
          simp only [List.getD_cons_succ, List.getD_cons_zero]
          rw [ih B C m (by simpa using hA) (by simpa using hB) (by simpa using hC)]
          ring

lemma sum_zipWith_getD (F : ℝ → ℝ → ℝ) :
    ∀ (A B : List ℝ) (m : ℕ), A.length = m → B.length = m →
      (List.zipWith F A B).sum = ∑ i ∈ Finset.range m, F (A.getD i 0) (B.getD i 0) := by
  intro A
  induction A with
  | nil =>
    intro B m hA hB
    subst hA
    simp
  | cons a A ih =>
    intro B m hA hB
    cases B with
    | nil => simp at hA hB; omega
    | cons b B =>
      cases m with
      | zero => simp at hA
      | succ m =>
        simp only [List.zipWith_cons_cons, List.sum_cons]
        rw [Finset.sum_range_succ']
        simp only [List.getD_cons_succ, List.getD_cons_zero]
        rw [ih B m (by simpa using hA) (by simpa using hB)]
        ring

lemma applyOp_eq (udp : global_fit_udp) (op : UdpOp) : applyOp udp op = udp := by
  cases op <;> rfl

lemma cart2geoAux_eq_stepSpec (z p e2 R : ℝ) (st : ℕ × Option ℝ × ℝ) :
    cart2geoAux z p e2 R st =
      (st.1 + 1, some (stepSpec z p e2 R st.2.2).1, (stepSpec z p e2 R st.2.2).2) := by
  simp only [cart2geoAux, stepSpec]
  rw [div_div]

lemma cart2geo_run_spec (z p e2 R : ℝ) :
    ∀ (j c : ℕ) (ho : Option ℝ) (phi : ℝ),
      (cart2geoAux z p e2 R)^[j + 1] (c, ho, phi) =
        (c + (j + 1), some (loopSpec z p e2 R j phi).1, (loopSpec z p e2 R j phi).2) := by
  intro j
  induction j with
  | zero =>
    intro c ho phi
    rw [show (0 + 1 : ℕ) = 1 from rfl, Function.iterate_one]
    rw [cart2geoAux_eq_stepSpec]
    rfl
  | succ j ih =>
    intro c ho phi
    rw [Function.iterate_succ_apply, cart2geoAux_eq_stepSpec]
    rw [ih]
    have hstep : loopSpec z p e2 R (j + 1) phi =
        loopSpec z p e2 R j (stepSpec z p e2 R phi).2 := rfl
    rw [hstep]
    have hc : c + 1 + (j + 1) = c + (j + 1 + 1) := by omega
    rw [hc]

end Lemmas

/-- Claim C4: for every `FitProblem` with term count `n`, `bounds()` returns two
vectors of length `3n`; the lower vector is all zeros, and the upper vector is
`0.1` in the first `2n` positions and `100` in the last `n` positions. -/
theorem claim_C4 (X Y : List ℝ) (n i : ℕ) (hi : i < 3 * n) :
    ((global_fit_udp.mk X Y n).get_bounds.1.length = 3 * n ∧
      (global_fit_udp.mk X Y n).get_bounds.2.length = 3 * n) ∧
    (global_fit_udp.mk X Y n).get_bounds.1.getD i 0 = 0 ∧
    (global_fit_udp.mk X Y n).get_bounds.2.getD i 0 = if i < 2 * n then 0.1 else 100 := by
  have hub : (global_fit_udp.mk X Y n).get_bounds.2 =
      List.replicate (n * 2) (1e-1 : ℝ) ++ List.replicate n (100 : ℝ) := by
    simp only [global_fit_udp.get_bounds, List.take_replicate]
    congr 2
    omega
  have hlb : (global_fit_udp.mk X Y n).get_bounds.1 = List.replicate (n * 3) (0 : ℝ) := rfl
  refine ⟨⟨?_, ?_⟩, ?_, ?_⟩
  · rw [hlb]; simp; omega
  · rw [hub]; simp; omega
  · rw [hlb, List.getD_eq_getElem _ _ (by simp; omega)]
    simp
  · rw [hub]
    by_cases hcase : i < 2 * n
    · rw [List.getD_eq_getElem _ _ (by simp; omega), if_pos hcase]
      rw [List.getElem_append_left (by simp; omega)]
      simp
    · rw [List.getD_eq_getElem _ _ (by simp; omega), if_neg hcase]
      rw [List.getElem_append_right (by simp; omega)]
      simp

/-- Claim C4 witness: a 1-term problem, checked at the last bound position. -/
theorem claim_C4_witness :
    ((global_fit_udp.mk [] [] 1).get_bounds.1.length = 3 * 1 ∧
      (global_fit_udp.mk [] [] 1).get_bounds.2.length = 3 * 1) ∧
    (global_fit_udp.mk [] [] 1).get_bounds.1.getD 2 0 = 0 ∧
    (global_fit_udp.mk [] [] 1).get_bounds.2.getD 2 0 = if 2 < 2 * 1 then 0.1 else 100 :=
  claim_C4 [] [] 1 2 (by norm_num)

/-- Claim C9: no sequence of `fitness`, `gradient` and `bounds` calls changes the
stored dataset fields `X`, `Y` and `n` of a `FitProblem`. -/
theorem claim_C9 (udp : global_fit_udp) (ops : List UdpOp) :
    (ops.foldl applyOp udp).X = udp.X ∧ (ops.foldl applyOp udp).Y = udp.Y ∧
      (ops.foldl applyOp udp).n = udp.n := by
  have key : ∀ (l : List UdpOp) (u : global_fit_udp), l.foldl applyOp u = u := by
    intro l
    induction l with
    | nil => intro u; rfl
    | cons op l ih =>
      intro u
      rw [List.foldl_cons, applyOp_eq]
      exact ih u
  rw [key]
  exact ⟨rfl, rfl, rfl⟩

/-- Claim C10: with `iterations = 0` the conversion fails (the local `h` is
never assigned before `return`), and it produces a value exactly when
`iterations ≥ 1`. -/
theorem claim_C10 (x y z e2 R : ℝ) :
    cart2geo x y z e2 R 0 = none ∧
      ∀ k, 1 ≤ k → (cart2geo x y z e2 R k).isSome = true := by
  constructor
  · rfl
  · intro k hk
    obtain ⟨j, rfl⟩ : ∃ j, k = j + 1 := ⟨k - 1, by omega⟩
    unfold cart2geo cart2geoRun
    rw [Function.iterate_succ_apply']
    simp [cart2geoAux]

/-- Claim C10 witness: a concrete conversion fails at zero iterations and
produces a value at one iteration. -/
theorem claim_C10_witness :
    cart2geo 2 3 5 (1 / 4) 2 0 = none ∧ (cart2geo 2 3 5 (1 / 4) 2 1).isSome = true :=
  ⟨(claim_C10 2 3 5 (1 / 4) 2).1, (claim_C10 2 3 5 (1 / 4) 2).2 1 (by norm_num)⟩

/-- Claim C2 counterexample: at iteration count `k = 0` the conversion does not
return an `(h, phi, longitude)` triple at all — the loop body never runs, the
local `h` is never assigned, and the `return` statement fails. -/
theorem claim_C2_counterexample : cart2geo 1 2 3 (1 / 2) 1 0 = none := rfl

/-- Claim C2 (amended to iteration counts `k ≥ 1`): the conversion computes
`longitude = atan2(y, x)`, `p = sqrt(x^2 + y^2)`, the initial estimate
`phi = atan(z / (p * (1 - e2)))`, performs exactly `k` refinement steps as the
spec words them, with a trip count of exactly `k` independent of the data, and
returns the `(h, phi, longitude)` triple of the spec's loop. -/
theorem claim_C2 (x y z e2 R : ℝ) (k : ℕ) (hk : 1 ≤ k) :
    cart2geo x y z e2 R k = some (cart2geoSpec x y z e2 R k) ∧
      (cart2geoRun x y z e2 R k).1 = k := by
  obtain ⟨j, rfl⟩ : ∃ j, k = j + 1 := ⟨k - 1, by omega⟩
  have hrun : cart2geoRun x y z e2 R (j + 1) =
      (0 + (j + 1),
       some (loopSpec z (Real.sqrt (x ^ 2 + y ^ 2)) e2 R j
         (Real.arctan (z / (Real.sqrt (x ^ 2 + y ^ 2) * (1 - e2))))).1,
       (loopSpec z (Real.sqrt (x ^ 2 + y ^ 2)) e2 R j
         (Real.arctan (z / (Real.sqrt (x ^ 2 + y ^ 2) * (1 - e2))))).2) := by
    simp only [cart2geoRun]
    rw [div_div]
    exact cart2geo_run_spec z _ e2 R j 0 none _
  constructor
  · simp only [cart2geo, cart2geoSpec]
    rw [hrun]
    simp
  · rw [hrun]
    omega

/-- Claim C2 witness: the amended statement holds at a concrete point with one
iteration. -/
theorem claim_C2_witness :
    cart2geo 1 0 2 (1 / 2) 1 1 = some (cart2geoSpec 1 0 2 (1 / 2) 1 1) ∧
      (cart2geoRun 1 0 2 (1 / 2) 1 1).1 = 1 :=
  claim_C2 1 0 2 (1 / 2) 1 1 (by norm_num)

/-- Claim C1: for a dataset `(X, Y)` and any parameter vector of length `3m`,
`fitness` is the mean over `i` of `|log10 (Y i) - log10 (rho(X, params) i)|`. -/
theorem claim_C1 (X Y params : List ℝ) (n m : ℕ) (hlen : Y.length = X.length)
    (hp : params.length = 3 * m) :
    (global_fit_udp.mk X Y n).fitness params =
      [(∑ i ∈ Finset.range X.length,
          |log10 (Y.getD i 0) - log10 ((rho_approximation X params).getD i 0)|) / X.length] := by
  have hP : (rho_approximation X params).length = X.length :=
    rho_approximation_length X params
  simp only [global_fit_udp.fitness, mean, List.zipWith_map, List.map_zipWith]
  rw [sum_zipWith_getD (fun a b => |log10 a - log10 b|) Y (rho_approximation X params)
    X.length hlen hP]
  rw [List.length_zipWith, hlen, hP, min_self]

/-- Claim C1 witness: a one-point dataset with the empty parameter vector. -/
theorem claim_C1_witness :
    (global_fit_udp.mk [1] [1] 1).fitness [] =
      [(∑ i ∈ Finset.range ([1] : List ℝ).length,
          |log10 (([1] : List ℝ).getD i 0) - log10 ((rho_approximation [1] []).getD i 0)|) /
        ([1] : List ℝ).length] :=
  claim_C1 [1] [1] [] 1 0 rfl (by norm_num)

/-- Claim C3: for parameters decomposed as `alphas ++ betas ++ gammas` (each of
length `n ≥ 1`), the density model output has the length of the altitude list,
an empty altitude list gives an empty output, and each entry is
`Σ_j alpha_j * exp(-(h_i - gamma_j) * beta_j)`. -/
theorem claim_C3 (h alphas betas gammas : List ℝ) (n : ℕ) (hn : 1 ≤ n)
    (ha : alphas.length = n) (hb : betas.length = n) (hg : gammas.length = n) :
    (rho_approximation h (alphas ++ betas ++ gammas)).length = h.length ∧
    rho_approximation [] (alphas ++ betas ++ gammas) = [] ∧
    ∀ i, i < h.length →
      (rho_approximation h (alphas ++ betas ++ gammas)).getD i 0 =
        ∑ j ∈ Finset.range n,
          alphas.getD j 0 * Real.exp (-(h.getD i 0 - gammas.getD j 0) * betas.getD j 0) := by
  have hdiv : (alphas ++ betas ++ gammas).length / 3 = n := by
    simp [List.length_append, ha, hb, hg]
    omega
  have htake : (alphas ++ betas ++ gammas).take n = alphas := by
    rw [List.append_assoc]
    exact List.take_left' ha
  have hbeta : ((alphas ++ betas ++ gammas).drop n).take n = betas := by
    rw [List.append_assoc, List.drop_left' ha]
    exact List.take_left' hb
  have hgamma : ((alphas ++ betas ++ gammas).drop (2 * n)).take n = gammas := by
    rw [List.drop_left' (by simp [ha, hb]; omega : (alphas ++ betas).length = 2 * n)]
    rw [← hg, List.take_length]
  refine ⟨rho_approximation_length h _, rho_approximation_nil _, ?_⟩
  intro i hi
  simp only [rho_approximation]
  rw [hdiv, htake, hbeta, hgamma]
  rw [rho_foldl_getD h _ _ (by simp) i hi]
  have hrep : (List.replicate h.length (0 : ℝ)).getD i 0 = 0 := by
    rw [List.getD_eq_getElem _ _ (by simpa using hi)]
    simp
  rw [hrep, sum_map_zip3_getD
    (fun a b c => a * Real.exp (-(h.getD i 0 - c) * b)) alphas betas gammas n ha hb hg]
  ring

/-- Claim C3 witness: one term `alpha = 2, beta = 0, gamma = 0` on one altitude. -/
theorem claim_C3_witness :
    (rho_approximation [5] ([2] ++ [0] ++ [0])).length = ([5] : List ℝ).length ∧
    rho_approximation [] ([2] ++ [0] ++ [0]) = [] ∧
    ∀ i, i < ([5] : List ℝ).length →
      (rho_approximation [5] ([2] ++ [0] ++ [0])).getD i 0 =
        ∑ j ∈ Finset.range 1,
          ([2] : List ℝ).getD j 0 *
            Real.exp (-(([5] : List ℝ).getD i 0 - ([0] : List ℝ).getD j 0) *
              ([0] : List ℝ).getD j 0) :=
  claim_C3 [5] [2] [0] [0] 1 (by norm_num) rfl rfl rfl

/-- Claim C5 counterexample: a parameter vector of length 4 (not a multiple of
3) is accepted without any error; the evaluation silently proceeds and returns
an ordinary density value, built from the first 3 entries only. -/
theorem claim_C5_counterexample :
    rho_approximation [0] [1, 2, 3, 4] = [Real.exp 6] := by
  simp [rho_approximation, rhoStep]
  norm_num

/-- Claim C5 (corrected): a parameter vector whose length is not a multiple of 3
does not signal any error; the evaluation silently proceeds, behaves exactly as
on the truncation to the first `3 * (length / 3)` entries (the remainder is
ignored), and returns an ordinary density sequence. -/
theorem claim_C5 (h params : List ℝ) (hlen : ¬params.length % 3 = 0) :
    rho_approximation h params =
      rho_approximation h (params.take (3 * (params.length / 3))) ∧
    (rho_approximation h params).length = h.length := by
  refine ⟨?_, rho_approximation_length h params⟩
  have hlen' : (params.take (3 * (params.length / 3))).length = 3 * (params.length / 3) := by
    simp [List.length_take]
    omega
  have hdiv' : (params.take (3 * (params.length / 3))).length / 3 = params.length / 3 := by
    rw [hlen']
    omega
  have t1 : (params.take (3 * (params.length / 3))).take (params.length / 3) =
      params.take (params.length / 3) := by
    rw [List.take_take]
    congr 1
    omega
  have t2 : ((params.take (3 * (params.length / 3))).drop (params.length / 3)).take
      (params.length / 3) = (params.drop (params.length / 3)).take (params.length / 3) := by
    rw [List.drop_take, List.take_take]
    congr 1
    omega
  have t3 : ((params.take (3 * (params.length / 3))).drop (2 * (params.length / 3))).take
      (params.length / 3) =
      (params.drop (2 * (params.length / 3))).take (params.length / 3) := by
    rw [List.drop_take, List.take_take]
    congr 1
    omega
  simp only [rho_approximation]
  rw [hdiv', t1, t2, t3]

/-- Claim C5 witness: the corrected statement at the length-4 vector. -/
theorem claim_C5_witness :
    rho_approximation [0] [1, 2, 3, 4] =
      rho_approximation [0] (([1, 2, 3, 4] : List ℝ).take
        (3 * (([1, 2, 3, 4] : List ℝ).length / 3))) ∧
    (rho_approximation [0] [1, 2, 3, 4]).length = ([0] : List ℝ).length :=
  claim_C5 [0] [1, 2, 3, 4] (by norm_num)

section FloatLemmas

namespace FloatV

lemma add_nan (x : FloatV) : add x nan = nan := by cases x <;> rfl

lemma nan_add (x : FloatV) : add nan x = nan := by cases x <;> rfl

lemma sub_nan (x : FloatV) : sub x nan = nan := by cases x <;> rfl

lemma nan_sub (x : FloatV) : sub nan x = nan := by cases x <;> rfl

lemma mul_nan (x : FloatV) : mul x nan = nan := by cases x <;> rfl

lemma nan_mul (x : FloatV) : mul nan x = nan := by cases x <;> rfl

lemma div_nan (x : FloatV) : div x nan = nan := by cases x <;> rfl

lemma nan_div (x : FloatV) : div nan x = nan := by cases x <;> rfl

lemma sinF_nan : sinF nan = nan := rfl

lemma cosF_nan : cosF nan = nan := rfl

lemma sqrtF_nan : sqrtF nan = nan := rfl

lemma atanF_nan : atanF nan = nan := rfl

end FloatV

lemma cart2geoFAux_nan (z p e2 R : FloatV) (ho : Option FloatV) :
    cart2geoFAux z p e2 R (ho, .nan) = (some .nan, .nan) := by
  simp [cart2geoFAux, FloatV.sinF_nan, FloatV.cosF_nan, FloatV.sqrtF_nan, FloatV.atanF_nan,
    FloatV.mul_nan, FloatV.nan_mul, FloatV.sub_nan, FloatV.nan_sub, FloatV.div_nan,
    FloatV.nan_div, FloatV.add_nan, FloatV.nan_add]

lemma one_sub_e2_pos : (0 : ℝ) < 1 - e2_wgs84 := by
  norm_num [e2_wgs84, a_earth, b_earth]

lemma cart2geoFAux_pole (z : FloatV) (ho : Option FloatV) (phi : ℝ)
    (hs : Real.sin phi * Real.sin phi = 1) (hc : Real.cos phi = 0) :
    cart2geoFAux z (.fin 0) e2_wgs84F R_eqF (ho, .fin phi) = (some .nan, .nan) := by
  have h2 : Real.sqrt (1 - e2_wgs84) ≠ 0 := ne_of_gt (Real.sqrt_pos.mpr one_sub_e2_pos)
  have hNv : FloatV.div (.fin a_earth)
      (FloatV.sqrtF (FloatV.sub (.fin 1) (FloatV.mul (.fin e2_wgs84)
        (FloatV.mul (FloatV.sinF (.fin phi)) (FloatV.sinF (.fin phi)))))) =
      .fin (a_earth / Real.sqrt (1 - e2_wgs84)) := by
    simp [FloatV.sinF, FloatV.mul, FloatV.sub, FloatV.sqrtF, FloatV.div, hs, h2,
      not_lt.mpr one_sub_e2_pos.le]
  simp only [cart2geoFAux, e2_wgs84F, R_eqF]
  rw [hNv]
  rw [show FloatV.cosF (.fin phi) = .fin 0 from by simp [FloatV.cosF, hc]]
  rw [show FloatV.div (.fin 0) (.fin 0) = .nan from by simp [FloatV.div]]
  rw [show FloatV.sub .nan (.fin (a_earth / Real.sqrt (1 - e2_wgs84))) = .nan from rfl]
  rw [FloatV.add_nan, FloatV.div_nan, FloatV.sub_nan, FloatV.div_nan, FloatV.atanF_nan]

lemma replicate_zip {α β : Type} (n : ℕ) (a : α) (b : β) :
    (List.replicate n a).zip (List.replicate n b) = List.replicate n (a, b) := by
  induction n with
  | zero => rfl
  | succ n ih => simp [List.replicate_succ, ih]

lemma rhoStepF_zero (X : List ℝ) :
    rhoStepF (X.map .fin) (List.replicate X.length (.fin 0)) (.fin 0, .fin 0, .fin 0) =
      List.replicate X.length (.fin 0) := by
  induction X with
  | nil => rfl
  | cons a X ih =>
    simp only [List.map_cons, List.length_cons, List.replicate_succ, rhoStepF,
      List.zipWith_cons_cons] at ih ⊢
    rw [show (FloatV.fin 0).add ((FloatV.fin 0).mul
        ((((FloatV.fin a).sub (FloatV.fin 0)).neg).mul (FloatV.fin 0)).expF) = FloatV.fin 0
      from by simp [FloatV.sub, FloatV.neg, FloatV.mul, FloatV.expF, FloatV.add]]
    rw [ih]

lemma rhoF_foldl_zero (X : List ℝ) :
    ∀ k : ℕ,
      (List.replicate k ((.fin 0 : FloatV), (.fin 0 : FloatV), (.fin 0 : FloatV))).foldl
        (rhoStepF (X.map .fin)) (List.replicate X.length (.fin 0)) =
        List.replicate X.length (.fin 0) := by
  intro k
  induction k with
  | zero => rfl
  | succ k ih =>
    rw [List.replicate_succ, List.foldl_cons, rhoStepF_zero]
    exact ih

lemma rho_approximationF_zero (X : List ℝ) (n : ℕ) :
    rho_approximationF (X.map .fin) (List.replicate (3 * n) (.fin 0)) =
      List.replicate X.length (.fin 0) := by
  simp only [rho_approximationF, List.length_map]
  have hdiv : (List.replicate (3 * n) (FloatV.fin 0)).length / 3 = n := by
    rw [List.length_replicate]
    omega
  rw [hdiv, List.take_replicate, List.drop_replicate, List.take_replicate,
    List.drop_replicate, List.take_replicate]
  have e1 : min n (3 * n) = n := by omega
  have e2 : min n (3 * n - n) = n := by omega
  have e3 : min n (3 * n - 2 * n) = n := by omega
  rw [e1, e2, e3, replicate_zip, replicate_zip]
  exact rhoF_foldl_zero X n

lemma map_log10F_zero (m : ℕ) :
    (List.replicate m (FloatV.fin 0)).map FloatV.log10F = List.replicate m .ninf := by
  simp [List.map_replicate, FloatV.log10F]

lemma zipWith_sub_ninf :
    ∀ Y : List ℝ, (∀ y ∈ Y, 0 < y) →
      List.zipWith FloatV.sub ((Y.map .fin).map FloatV.log10F)
        (List.replicate Y.length .ninf) = List.replicate Y.length .inf := by
  intro Y
  induction Y with
  | nil => intro _; rfl
  | cons y Y ih =>
    intro hY
    have hy : 0 < y := hY y (by simp)
    simp only [List.map_cons, List.length_cons, List.replicate_succ, List.zipWith_cons_cons]
    rw [show FloatV.sub (FloatV.log10F (.fin y)) .ninf = .inf
      from by simp [FloatV.log10F, FloatV.sub, ne_of_gt hy, not_lt.mpr hy.le]]
    rw [ih (fun u hu => hY u (by simp [hu]))]

lemma map_absF_inf (m : ℕ) :
    (List.replicate m FloatV.inf).map FloatV.absF = List.replicate m .inf := by
  simp [List.map_replicate, FloatV.absF]

lemma foldl_add_inf :
    ∀ k : ℕ, (List.replicate k FloatV.inf).foldl FloatV.add .inf = .inf := by
  intro k
  induction k with
  | zero => rfl
  | succ k ih =>
    rw [List.replicate_succ, List.foldl_cons]
    exact ih

lemma sum_replicate_inf (m : ℕ) (hm : 1 ≤ m) :
    (List.replicate m FloatV.inf).foldl FloatV.add (.fin 0) = .inf := by
  obtain ⟨k, rfl⟩ : ∃ k, m = k + 1 := ⟨m - 1, by omega⟩
  rw [List.replicate_succ, List.foldl_cons]
  exact foldl_add_inf k

end FloatLemmas

/-- Claim C6: on a dataset with at least one altitude and positive densities,
`fitness` at the all-zero parameter vector evaluates to `+inf` under IEEE
semantics (predicted density is exactly 0 everywhere, `log10 0 = -inf`), and no
exception is raised: the infinite value is returned. -/
theorem claim_C6 (X Y : List ℝ) (n : ℕ) (hlen : Y.length = X.length) (hne : X ≠ [])
    (hY : ∀ y ∈ Y, 0 < y) :
    fitnessF (X.map .fin) (Y.map .fin) (List.replicate (3 * n) (.fin 0)) = [FloatV.inf] := by
  have hx : 1 ≤ Y.length := by
    rw [hlen]
    rcases X with _ | ⟨a, X⟩
    · exact absurd rfl hne
    · simp
  simp only [fitnessF]
  rw [rho_approximationF_zero, map_log10F_zero, ← hlen, zipWith_sub_ninf Y hY, map_absF_inf]
  simp only [meanF]
  rw [sum_replicate_inf _ hx]
  have hnn : ¬((Y.length : ℝ) < 0) := not_lt.mpr (by positivity)
  simp [FloatV.div, hnn]

/-- Claim C6 witness: a one-point dataset and a 4-term all-zero vector. -/
theorem claim_C6_witness :
    fitnessF (([100] : List ℝ).map .fin) (([1] : List ℝ).map .fin)
      (List.replicate (3 * 4) (.fin 0)) = [FloatV.inf] :=
  claim_C6 [100] [1] 4 rfl (by simp) (by norm_num)

/-- Claim C7: on the polar axis (`x = y = 0`, `z ≠ 0`) with the default WGS84
ellipsoid and 4 iterations, the numeric backend returns NaN for both the
altitude and the latitude — never a finite value — and raises no exception:
the division by zero propagates as IEEE values. -/
theorem claim_C7 (z : ℝ) (hz : z ≠ 0) :
    cart2geoF (.fin 0) (.fin 0) (.fin z) e2_wgs84F R_eqF 4 = some (.nan, .nan, .fin 0) := by
  have hp : FloatV.sqrtF (FloatV.add (FloatV.mul (.fin 0) (.fin 0))
      (FloatV.mul (.fin 0) (.fin 0))) = .fin 0 := by
    simp [FloatV.mul, FloatV.add, FloatV.sqrtF]
  have hiter : ∀ phi : ℝ, Real.sin phi * Real.sin phi = 1 → Real.cos phi = 0 →
      (cart2geoFAux (.fin z) (.fin 0) e2_wgs84F R_eqF)^[4] (none, .fin phi) =
        (some .nan, .nan) := by
    intro phi hs hc
    rw [show (4 : ℕ) = 3 + 1 from by norm_num, Function.iterate_succ_apply,
      cart2geoFAux_pole (.fin z) none phi hs hc,
      show (3 : ℕ) = 2 + 1 from by norm_num, Function.iterate_succ_apply, cart2geoFAux_nan,
      show (2 : ℕ) = 1 + 1 from by norm_num, Function.iterate_succ_apply, cart2geoFAux_nan,
      Function.iterate_one, cart2geoFAux_nan]
  rcases hz.lt_or_lt with hneg | hpos
  · have hphi : FloatV.atanF (FloatV.div (FloatV.div (.fin z) (.fin 0))
        (FloatV.sub (.fin 1) e2_wgs84F)) = .fin (-(Real.pi / 2)) := by
      simp [FloatV.div, FloatV.sub, e2_wgs84F, FloatV.atanF, hz, not_lt.mpr hneg.le,
        not_lt.mpr one_sub_e2_pos.le]
    simp only [cart2geoF]
    rw [hp, hphi, hiter (-(Real.pi / 2))
      (by simp [Real.sin_neg, Real.sin_pi_div_two])
      (by simp [Real.cos_neg, Real.cos_pi_div_two])]
    simp [FloatV.atan2F]
  · have hphi : FloatV.atanF (FloatV.div (FloatV.div (.fin z) (.fin 0))
        (FloatV.sub (.fin 1) e2_wgs84F)) = .fin (Real.pi / 2) := by
      simp [FloatV.div, FloatV.sub, e2_wgs84F, FloatV.atanF, hz, hpos,
        not_lt.mpr one_sub_e2_pos.le]
    simp only [cart2geoF]
    rw [hp, hphi, hiter (Real.pi / 2)
      (by simp [Real.sin_pi_div_two])
      Real.cos_pi_div_two]
    simp [FloatV.atan2F]

/-- Claim C7 witness: the pole behaviour at the concrete point `z = 1`. -/
theorem claim_C7_witness :
    cart2geoF (.fin 0) (.fin 0) (.fin 1) e2_wgs84F R_eqF 4 = some (.nan, .nan, .fin 0) :=
  claim_C7 1 (by norm_num)
